import Mathlib

/-!
Shallow embedding of the Secret-Monero-Bridge contract
(src/secret-contracts/bridge), covering the pieces of the data model and
the command/query processors that the verified properties below refer to.

Modelling conventions:
* `HumanAddr` and `CanonicalAddr` are both rendered as `Addr := String`;
  the `canonical_address` and `human_address` conversions of the host api
  are identity on this model, which is faithful for every property below
  (none depends on the bech32 encoding itself).
* `u128` amounts are `Nat` (the code only compares and forwards them, it
  never does wrapping arithmetic on them).
* A handler returning `StdResult<HandleResponse>` while mutating the
  storage through `deps` is rendered as a pure function
  `ContractState → ... → Except StdError (ContractState × HandleResponse)`.
  An `Except.error` result carries no successor state and no outbound
  messages: this models the host guarantee that a failed call is rolled
  back wholesale, and matches the code, where every `return Err(..)`
  happens before the corresponding store write.
* The `AppendStore` ledgers are Lean lists; `AppendStore::attach` on a
  never-created store (`None`) and an empty list both make the linear
  scans below report not-found, so the empty list models both.
* `Binary` response payloads produced with `to_binary` are byte lists;
  the serde snake-case JSON encoding of `HandleResult` is spelled out
  explicitly because the padding behaviour is about byte lengths.
* The inbound `Receive` sub-payload (`msg: Binary` deserialized with
  `from_binary::<SwapDetails>`) is modelled as `Option SwapDetailsMsg`:
  `some` is a payload that deserializes, `none` one that does not.
-/

namespace SecretMoneroBridge

/-- Addresses: `HumanAddr` and `CanonicalAddr` unified. -/
abbrev Addr := String

/-- The `cosmwasm_std::StdError` variants this contract produces. -/
inductive StdError where
  | genericErr (msg : String)
  | notFound (kind : String)
  | parseErr (target : String)
  deriving DecidableEq

/-- msg.rs `ContractStatusLevel`. -/
inductive ContractStatusLevel where
  | Running
  | Paused
  deriving DecidableEq

/-- msg.rs `status_level_to_u8`. -/
def status_level_to_u8 (status_level : ContractStatusLevel) : Nat :=
  match status_level with
  | .Running => 0
  | .Paused => 1

/-- msg.rs `u8_to_status_level`. -/
def u8_to_status_level (status_level : Nat) : Except StdError ContractStatusLevel :=
  match status_level with
  | 0 => .ok .Running
  | 1 => .ok .Paused
  | _ => .error (.genericErr "Invalid state level")

/-- state.rs / msg.rs `Snip20` (identical fields once addresses are unified). -/
structure Snip20 where
  address : Addr
  contract_hash : String
  deriving DecidableEq

/-- state.rs `Constants` — the config singleton. -/
structure Constants where
  admin : Addr
  snip20 : Snip20
  viewing_key : String
  prng_seed : List Nat
  deriving DecidableEq

/-- state.rs `MoneroProof`. -/
structure MoneroProof where
  tx_id : String
  tx_key : String
  address : String
  deriving DecidableEq

/-- state.rs `SwapDetails` (the stored record). -/
structure SwapDetails where
  to_monero_address : String
  from_secret_address : Addr
  amount : Nat
  nonce : Nat
  deriving DecidableEq

/-- msg.rs `SwapDetails` (the wire form carried in the `Receive` payload). -/
structure SwapDetailsMsg where
  to_monero_address : String
  from_secret_address : Addr
  amount : Nat
  nonce : Nat
  deriving DecidableEq

/-- msg.rs `SwapDetails::to_stored` (address canonicalization is identity here). -/
def SwapDetailsMsg.to_stored (m : SwapDetailsMsg) : SwapDetails :=
  { to_monero_address := m.to_monero_address
    from_secret_address := m.from_secret_address
    amount := m.amount
    nonce := m.nonce }

/-- Modelled from the spec: the `ViewingKey` type lives in `viewing_key.rs`,
which is not among the provided sources (state.rs and contract.rs only import
it). Per spec section 4.4 the store never holds the raw key, only a
fixed-construction one-way digest of it, and a gated query recomputes the
digest of the submitted key and compares it to the stored digest. The
concrete digest construction is irrelevant to every property below, which
only compare digests for equality; it is modelled as an injective byte
encoding of the key. -/
structure ViewingKey where
  key : String
  deriving DecidableEq

/-- Modelled from the spec: `ViewingKey::to_hashed` — the stored digest. -/
def ViewingKey.to_hashed (vk : ViewingKey) : List Nat :=
  vk.key.data.map Char.toNat

/-- Modelled from the spec: `ViewingKey::is_valid` — digest comparison. -/
def ViewingKey.is_valid (vk : ViewingKey) (expected : List Nat) : Bool :=
  vk.to_hashed == expected

/-- The four storage partitions after `init` has run (init always populates
every field, so the model carries them directly). `viewing_keys` models the
prefixed key-value store under `VK_KEY` as a shadowing association list:
`read_viewing_key` returns the first (most recent) binding. -/
structure ContractState where
  constants : Constants
  minters : List Addr
  status : ContractStatusLevel
  min_swap_amount : Nat
  proofs : List MoneroProof
  swaps : List SwapDetails
  viewing_keys : List (Addr × List Nat)
  deriving DecidableEq

/-- state.rs `read_viewing_key`. -/
def read_viewing_key (vks : List (Addr × List Nat)) (owner : Addr) : Option (List Nat) :=
  (vks.find? (fun p => p.1 == owner)).map (fun p => p.2)

/-- state.rs `set_viewing_key` — stores the digest, overwriting any earlier
binding (modelled by shadowing: reads see the newest entry first). -/
def set_viewing_key (vks : List (Addr × List Nat)) (owner : Addr) (key : ViewingKey) :
    List (Addr × List Nat) :=
  (owner, key.to_hashed) :: vks

/-- state.rs `ReadonlyMoneroProofsStore::fetch_by_tx_id`: linear scan of the
append-only proof ledger for the first record with the given `tx_id`;
`NotFound` when the ledger has no such record (or was never created). -/
def fetch_by_tx_id (proofs : List MoneroProof) (tx_id : String) : Except StdError MoneroProof :=
  match proofs.find? (fun p => p.tx_id == tx_id) with
  | some p => .ok p
  | none => .error (.notFound "proofs")

/-- state.rs `MoneroProofsStore::save`: append. -/
def monero_proofs_save (proofs : List MoneroProof) (mp : MoneroProof) : List MoneroProof :=
  proofs ++ [mp]

/-- state.rs `SwapDetailsStore::save`: the assigned nonce is the ledger
length at the moment of insertion; it is written into the stored record and
returned. -/
def swap_details_save (swaps : List SwapDetails) (sd : SwapDetails) :
    List SwapDetails × Nat :=
  let nonce := swaps.length
  (swaps ++ [{ sd with nonce := nonce }], nonce)

/-- state.rs `ReadonlySwapDetailsStore::fetch_swap_details`: linear scan for
the first record matching both the nonce and the requester identity;
`NotFound` otherwise. -/
def fetch_swap_details (swaps : List SwapDetails) (scrt_addr : Addr) (nonce : Nat) :
    Except StdError SwapDetails :=
  match swaps.find? (fun sd => sd.nonce == nonce && sd.from_secret_address == scrt_addr) with
  | some sd => .ok sd
  | none => .error (.notFound "swaps")

/-- msg.rs `ResponseStatus`. -/
inductive ResponseStatus where
  | Success
  | Failure
  deriving DecidableEq

/-- The `HandleResult` payload enum. (msg.rs as shipped names the viewing-key
variant `ChangeViewingKey`; contract.rs and its tests use `SetViewingKey` —
the contract.rs spelling is kept, the serialization tag follows it.) -/
inductive HandleResult where
  | ChangeAdmin (status : ResponseStatus)
  | ChangeSecretMoneroContract (status : ResponseStatus)
  | SetViewingKey (status : ResponseStatus)
  | MintSecretMonero (status : ResponseStatus)
  | Receive (status : ResponseStatus) (nonce : Nat)
  | SetContractStatus (status : ResponseStatus)
  | SetMinters (status : ResponseStatus)
  deriving DecidableEq

/-- serde snake-case rendering of `ResponseStatus`. -/
def status_json (st : ResponseStatus) : String :=
  match st with
  | .Success => "success"
  | .Failure => "failure"

/-- Compact serde JSON for a one-field `\x7b"tag":\x7b"status":...\x7d\x7d` result. -/
def wrap_status (tag : String) (st : ResponseStatus) : String :=
  "\x7b\"" ++ tag ++ "\":\x7b\"status\":\"" ++ status_json st ++ "\"\x7d\x7d"

/-- The compact serde JSON text `to_binary` produces for a `HandleResult`
(field order follows declaration order, names follow `rename_all = "snake_case"`). -/
def handle_result_json (r : HandleResult) : String :=
  match r with
  | .ChangeAdmin st => wrap_status "change_admin" st
  | .ChangeSecretMoneroContract st => wrap_status "change_secret_monero_contract" st
  | .SetViewingKey st => wrap_status "set_viewing_key" st
  | .MintSecretMonero st => wrap_status "mint_secret_monero" st
  | .Receive st n =>
      "\x7b\"receive\":\x7b\"status\":\"" ++ status_json st ++ "\",\"nonce\":" ++ Nat.repr n ++ "\x7d\x7d"
  | .SetContractStatus st => wrap_status "set_contract_status" st
  | .SetMinters st => wrap_status "set_minters" st

/-- `to_binary(&HandleResult)` as bytes (all characters involved are ASCII). -/
def to_binary_handle_result (r : HandleResult) : List Nat :=
  (handle_result_json r).data.map Char.toNat

/-- token_msg.rs `TokenMsg` (the always-`None` memo/padding options are omitted). -/
inductive TokenMsg where
  | Burn (amount : Nat)
  | Mint (recipient : Addr) (amount : Nat)
  | DeRegisterReceive
  deriving DecidableEq

/-- The outbound `CosmosMsg`s this contract emits: the two snip20 helper
messages from secret_toolkit, and `TokenMsg::to_cosmos_msg` executions. -/
inductive OutMsg where
  | registerReceive (code_hash : String) (contract_hash : String) (address : Addr)
  | setViewingKeyMsg (key : String) (contract_hash : String) (address : Addr)
  | tokenExec (msg : TokenMsg) (address : Addr) (contract_hash : String)
  deriving DecidableEq

/-- `cosmwasm_std::HandleResponse`. -/
structure HandleResponse where
  messages : List OutMsg
  log : List (String × String)
  data : Option (List Nat)
  deriving DecidableEq

/-- The parts of `cosmwasm_std::Env` the handlers read. -/
structure Env where
  sender : Addr
  contract_code_hash : String
  deriving DecidableEq

/-- constants.rs `BLOCK_SIZE`. -/
def BLOCK_SIZE : Nat := 256

/-- msg.rs `space_pad`: pad with spaces (byte 32) to the next multiple of
`block_size`; already-aligned messages (surplus 0) are returned untouched. -/
def space_pad (block_size : Nat) (message : List Nat) : List Nat :=
  let len := message.length
  let surplus := len % block_size
  if surplus == 0 then message
  else message ++ List.replicate (block_size - surplus) 32

/-- contract.rs `pad_response`: space-pad the `data` payload of an `Ok`
response to `BLOCK_SIZE`; errors pass through. -/
def pad_response (response : Except StdError (ContractState × HandleResponse)) :
    Except StdError (ContractState × HandleResponse) :=
  match response with
  | .error e => .error e
  | .ok (s, resp) =>
      .ok (s, { resp with data := resp.data.map (fun d => space_pad BLOCK_SIZE d) })

/-- contract.rs `is_admin`. -/
def is_admin (s : ContractState) (account : Addr) : Bool :=
  s.constants.admin == account

/-- contract.rs `auth_admin_access`. -/
def auth_admin_access (s : ContractState) (account : Addr) : Except StdError Unit :=
  if is_admin s account then .ok ()
  else .error (.genericErr
    "This is an admin command. Admin commands can only be run from admin address")

/-- contract.rs `auth_mint`: the sender must be an element of the minter set. -/
def auth_mint (s : ContractState) (sender : Addr) : Except StdError Unit :=
  if s.minters.contains sender then .ok ()
  else .error (.genericErr "user is unauthorized to mint")

/-- contract.rs `auth_burn`: only the registered snip20 token contract may
deliver burn notifications. -/
def auth_burn (s : ContractState) (sender : Addr) : Except StdError Unit :=
  if sender == s.constants.snip20.address then .ok ()
  else .error (.genericErr "only the sXMR contract can burn tokens")

/-- contract.rs `is_valid_proof`: a proof is valid iff its `tx_id` is not in
the proof ledger. (The code returns `true` on `NotFound` and panics on any
other error; `fetch_by_tx_id` in this model fails only with `NotFound`.) -/
def is_valid_proof (tx_id : String) (proofs : List MoneroProof) : Bool :=
  match fetch_by_tx_id proofs tx_id with
  | .ok _ => false
  | .error _ => true

/-- msg.rs `HandleMsg` (the ignored `padding` options are omitted; the
`Receive` variant also carries a `sender` field the handler discards). -/
inductive HandleMsg where
  | ChangeAdmin (address : Addr)
  | ChangeSecretMoneroContract (secret_monero : Snip20)
  | SetViewingKey (key : String)
  | MintSecretMonero (proof : MoneroProof) (recipient : Addr) (amount : Nat)
  | Receive (from_addr : Addr) (sender : Addr) (amount : Nat) (msg : Option SwapDetailsMsg)
  | SetMinters (minters : List Addr)
  | SetContractStatus (level : ContractStatusLevel)
  deriving DecidableEq

/-- contract.rs `set_minters`: admin-gated wholesale replacement. -/
def set_minters (s : ContractState) (env : Env) (new_minters : List Addr) :
    Except StdError (ContractState × HandleResponse) :=
  match auth_admin_access s env.sender with
  | .error e => .error e
  | .ok _ =>
      .ok ({ s with minters := new_minters },
        { messages := [], log := [],
          data := some (to_binary_handle_result (.SetMinters .Success)) })

/-- contract.rs `change_admin`. -/
def change_admin (s : ContractState) (env : Env) (address : Addr) :
    Except StdError (ContractState × HandleResponse) :=
  match auth_admin_access s env.sender with
  | .error e => .error e
  | .ok _ =>
      .ok ({ s with constants := { s.constants with admin := address } },
        { messages := [], log := [],
          data := some (to_binary_handle_result (.ChangeAdmin .Success)) })

/-- contract.rs `change_sxmr_contract`: swap the stored token reference and
emit register-new / set-vk-new / deregister-old. -/
def change_sxmr_contract (s : ContractState) (env : Env) (new_sxmr : Snip20) :
    Except StdError (ContractState × HandleResponse) :=
  match auth_admin_access s env.sender with
  | .error e => .error e
  | .ok _ =>
      let old_contract := s.constants.snip20
      let consts := { s.constants with snip20 := new_sxmr }
      .ok ({ s with constants := consts },
        { messages :=
            [ .registerReceive env.contract_code_hash new_sxmr.contract_hash new_sxmr.address,
              .setViewingKeyMsg consts.viewing_key new_sxmr.contract_hash new_sxmr.address,
              .tokenExec .DeRegisterReceive old_contract.address old_contract.contract_hash ],
          log := [],
          data := some (to_binary_handle_result (.ChangeSecretMoneroContract .Success)) })

/-- contract.rs `set_contract_vk` (admin path of SetViewingKey): emits the
set-viewing-key instruction to the token service. It writes nothing to the
contract state — in particular `Constants.viewing_key` keeps its old value. -/
def set_contract_vk (s : ContractState) (vk : String) :
    Except StdError (ContractState × HandleResponse) :=
  .ok (s,
    { messages := [.setViewingKeyMsg vk s.constants.snip20.contract_hash
        s.constants.snip20.address],
      log := [],
      data := some (to_binary_handle_result (.SetViewingKey .Success)) })

/-- contract.rs `set_vk`: the admin rotates the contract credential with the
token service; any other caller writes its own viewing-key digest. -/
def set_vk (s : ContractState) (env : Env) (vk : String) :
    Except StdError (ContractState × HandleResponse) :=
  if is_admin s env.sender then set_contract_vk s vk
  else
    .ok ({ s with viewing_keys := set_viewing_key s.viewing_keys env.sender (ViewingKey.mk vk) },
      { messages := [], log := [],
        data := some (to_binary_handle_result (.SetViewingKey .Success)) })

/-- contract.rs `set_contract_status`: admin-gated status write. -/
def set_contract_status (s : ContractState) (env : Env) (status_level : ContractStatusLevel) :
    Except StdError (ContractState × HandleResponse) :=
  match auth_admin_access s env.sender with
  | .error e => .error e
  | .ok _ =>
      .ok ({ s with status := status_level },
        { messages := [], log := [],
          data := some (to_binary_handle_result (.SetContractStatus .Success)) })

/-- contract.rs `mint_sxmr`: minter-gated; rejects a proof whose `tx_id` is
already in the proof ledger, otherwise appends the proof and emits one Mint
instruction to the token service. -/
def mint_sxmr (s : ContractState) (env : Env) (amount : Nat) (proof : MoneroProof)
    (recipient : Addr) : Except StdError (ContractState × HandleResponse) :=
  match auth_mint s env.sender with
  | .error e => .error e
  | .ok _ =>
      if is_valid_proof proof.tx_id s.proofs then
        .ok ({ s with proofs := monero_proofs_save s.proofs proof },
          { messages := [.tokenExec (.Mint recipient amount) s.constants.snip20.address
              s.constants.snip20.contract_hash],
            log := [],
            data := some (to_binary_handle_result (.MintSecretMonero .Success)) })
      else .error (.genericErr "invalid monero proof")

/-- `from_binary::<SwapDetails>` on the opaque `Receive` payload. -/
def from_binary_swap_details (msg : Option SwapDetailsMsg) : Except StdError SwapDetailsMsg :=
  match msg with
  | some sd => .ok sd
  | none => .error (.parseErr "SwapDetails")

/-- contract.rs `burn_sxmr`: token-contract-gated; threshold check before any
mutation; the stored record takes its requester identity from the
notification `from` field (overwriting whatever the payload claimed); append
to the swap ledger and emit one Burn instruction. -/
def burn_sxmr (s : ContractState) (env : Env) (from_addr : Addr) (amount : Nat)
    (msg : Option SwapDetailsMsg) : Except StdError (ContractState × HandleResponse) :=
  match auth_burn s env.sender with
  | .error e => .error e
  | .ok _ =>
      if amount < s.min_swap_amount then
        .error (.genericErr
          ("Cannot swap amount under minimum of: " ++ Nat.repr s.min_swap_amount))
      else
        match from_binary_swap_details msg with
        | .error e => .error e
        | .ok sd0 =>
            let sd := { sd0 with from_secret_address := from_addr }
            let saved := swap_details_save s.swaps sd.to_stored
            .ok ({ s with swaps := saved.1 },
              { messages := [.tokenExec (.Burn amount) s.constants.snip20.address
                  s.constants.snip20.contract_hash],
                log := [("tx_id", Nat.repr saved.2)],
                data := some (to_binary_handle_result (.Receive .Success saved.2)) })

/-- contract.rs `handle`: the pause gate runs first — while `Paused`, only
`SetContractStatus` is dispatched (through `pad_response`) and everything
else fails with the fixed stopped error; while `Running` the dispatch table
runs the handlers directly (note: without `pad_response`). -/
def handle (s : ContractState) (env : Env) (msg : HandleMsg) :
    Except StdError (ContractState × HandleResponse) :=
  if s.status = ContractStatusLevel.Paused then
    pad_response
      (match msg with
        | .SetContractStatus level => set_contract_status s env level
        | _ => .error (.genericErr "This contract is stopped and this action is not allowed"))
  else
    match msg with
    | .ChangeAdmin address => change_admin s env address
    | .ChangeSecretMoneroContract sm => change_sxmr_contract s env sm
    | .SetViewingKey key => set_vk s env key
    | .MintSecretMonero proof recipient amount => mint_sxmr s env amount proof recipient
    | .Receive from_addr _sender amount m => burn_sxmr s env from_addr amount m
    | .SetContractStatus level => set_contract_status s env level
    | .SetMinters minters => set_minters s env minters

/-- query_messages.rs `QueryResponse`. -/
inductive QueryResponse where
  | Config (admin : Addr) (minters : List Addr) (min_swap : Nat)
      (secret_monero : Snip20) (status : ContractStatusLevel)
  | SecretMoneroBalance (balance : Nat)
  | SwapDetails (to_monero_address : String) (from_secret_address : Addr) (amount : Nat)
  | ViewingKeyError (msg : String)
  deriving DecidableEq

/-- contract.rs `auth_vk_access`: `some err` refuses access, `none` grants it.
The no-key-registered case and the wrong-key case produce two different
`ViewingKeyError` messages. -/
def auth_vk_access (vks : List (Addr × List Nat)) (address : Addr) (view_key : String) :
    Option QueryResponse :=
  let vk := ViewingKey.mk view_key
  match read_viewing_key vks address with
  | none => some (.ViewingKeyError "viewing key for this address is not set")
  | some expected =>
      if vk.is_valid expected then none
      else some (.ViewingKeyError "incorrect viewing key")

/-- contract.rs `query_swap_details`: gate on the viewing key (an
authentication failure is an `Ok` binary carrying the error response), then
look up the (nonce, identity) pair; a failed lookup propagates `NotFound`. -/
def query_swap_details (s : ContractState) (address : Addr) (viewing_key : String)
    (nonce : Nat) : Except StdError QueryResponse :=
  match auth_vk_access s.viewing_keys address viewing_key with
  | some err => .ok err
  | none =>
      match fetch_swap_details s.swaps address nonce with
      | .error e => .error e
      | .ok sd => .ok (.SwapDetails sd.to_monero_address sd.from_secret_address sd.amount)

/-- contract.rs `query_config`: the public unauthenticated read. It is built
from exactly five pieces of the state: admin, minters, min swap amount, the
token reference, and the status. -/
def query_config (s : ContractState) : QueryResponse :=
  .Config s.constants.admin s.minters s.min_swap_amount s.constants.snip20 s.status

/-- One burn notification (`HandleMsg::Receive`) as delivered to `burn_sxmr`. -/
structure BurnCall where
  env : Env
  from_addr : Addr
  amount : Nat
  msg : Option SwapDetailsMsg
  deriving DecidableEq

/-- Run a sequence of burn notifications, collecting the responses; stops at
the first failure. -/
def run_burns (s : ContractState) (calls : List BurnCall) :
    Except StdError (ContractState × List HandleResponse) :=
  match calls with
  | [] => .ok (s, [])
  | c :: rest =>
      match burn_sxmr s c.env c.from_addr c.amount c.msg with
      | .error e => .error e
      | .ok (s1, r) =>
          match run_burns s1 rest with
          | .error e => .error e
          | .ok (s2, rs) => .ok (s2, r :: rs)

/-! Concrete fixtures (mirroring the values the repository test suite uses)
for the witness theorems below. -/

def test_snip20 : Snip20 := { address := "tokenAddr", contract_hash := "tokenHash" }

def test_constants : Constants :=
  { admin := "admin", snip20 := test_snip20, viewing_key := "vk", prng_seed := [1, 2, 3] }

def test_state : ContractState :=
  { constants := test_constants
    minters := ["bridgeMinter"]
    status := .Running
    min_swap_amount := 10000
    proofs := []
    swaps := []
    viewing_keys := [] }

def admin_env : Env := { sender := "admin", contract_code_hash := "bridgeHash" }

def minter_env : Env := { sender := "bridgeMinter", contract_code_hash := "bridgeHash" }

def token_env : Env := { sender := "tokenAddr", contract_code_hash := "bridgeHash" }

def other_env : Env := { sender := "mallory", contract_code_hash := "bridgeHash" }

def paused_state : ContractState := { test_state with status := .Paused }

def c1_proof : MoneroProof := { tx_id := "t1", tx_key := "k1", address := "multisig" }

def c1_proof2 : MoneroProof := { tx_id := "t1", tx_key := "k2", address := "multisig2" }

def c1_state : ContractState := { test_state with proofs := [c1_proof] }

def c2_payload_a : SwapDetailsMsg :=
  { to_monero_address := "xmrA", from_secret_address := "payloadLiar", amount := 20000, nonce := 99 }

def c2_payload_b : SwapDetailsMsg :=
  { to_monero_address := "xmrB", from_secret_address := "bob", amount := 30000, nonce := 7 }

def c2_calls : List BurnCall :=
  [ { env := token_env, from_addr := "alice", amount := 20000, msg := some c2_payload_a },
    { env := token_env, from_addr := "bob", amount := 30000, msg := some c2_payload_b } ]

def c2_final : ContractState :=
  { test_state with swaps :=
      [ { to_monero_address := "xmrA", from_secret_address := "alice", amount := 20000, nonce := 0 },
        { to_monero_address := "xmrB", from_secret_address := "bob", amount := 30000, nonce := 1 } ] }

def c2_responses : List HandleResponse :=
  [ { messages := [.tokenExec (.Burn 20000) "tokenAddr" "tokenHash"],
      log := [("tx_id", "0")],
      data := some (to_binary_handle_result (.Receive .Success 0)) },
    { messages := [.tokenExec (.Burn 30000) "tokenAddr" "tokenHash"],
      log := [("tx_id", "1")],
      data := some (to_binary_handle_result (.Receive .Success 1)) } ]

def vk_wrong_state : ContractState :=
  { test_state with viewing_keys := [("alice", (ViewingKey.mk "secret").to_hashed)] }

def c4_record : SwapDetails :=
  { to_monero_address := "xmrA", from_secret_address := "alice", amount := 20000, nonce := 0 }

def c4_state : ContractState := { test_state with swaps := [c4_record] }

def c4_resp : HandleResponse :=
  { messages := [.tokenExec (.Burn 20000) "tokenAddr" "tokenHash"],
    log := [("tx_id", "0")],
    data := some (to_binary_handle_result (.Receive .Success 0)) }

def c7_state : ContractState :=
  { test_state with
    swaps := [{ to_monero_address := "xmrB", from_secret_address := "bob", amount := 20000, nonce := 0 }],
    viewing_keys := [("alice", (ViewingKey.mk "alicekey").to_hashed)] }

def c10_twin : ContractState :=
  { test_state with constants := { test_constants with viewing_key := "rotated", prng_seed := [9, 9] } }

/-! Theorems. -/

/-- Inversion of a successful `burn_sxmr` call: the payload deserialized,
and the new state and response are exactly the append of one record whose
requester identity is the notification `from` and whose nonce is the ledger
length before the call. -/
theorem burn_sxmr_ok_spec (s : ContractState) (env : Env) (from_addr : Addr) (amount : Nat)
    (msg : Option SwapDetailsMsg) (s' : ContractState) (r : HandleResponse)
    (h : burn_sxmr s env from_addr amount msg = .ok (s', r)) :
    ∃ sd0, msg = some sd0 ∧
      s' = { s with swaps := s.swaps ++
        [{ to_monero_address := sd0.to_monero_address, from_secret_address := from_addr,
           amount := sd0.amount, nonce := s.swaps.length }] } ∧
      r = { messages := [.tokenExec (.Burn amount) s.constants.snip20.address
              s.constants.snip20.contract_hash],
            log := [("tx_id", Nat.repr s.swaps.length)],
            data := some (to_binary_handle_result (.Receive .Success s.swaps.length)) } := by
  unfold burn_sxmr at h
  cases hab : auth_burn s env.sender with
  | error e => simp [hab] at h
  | ok u =>
    simp only [hab] at h
    by_cases hamt : amount < s.min_swap_amount
    · rw [if_pos hamt] at h
      exact absurd h (by simp)
    · rw [if_neg hamt] at h
      cases hm : msg with
      | none => simp [hm, from_binary_swap_details] at h
      | some sd0 =>
        simp only [hm, from_binary_swap_details, swap_details_save, SwapDetailsMsg.to_stored,
          Except.ok.injEq, Prod.mk.injEq] at h
        exact ⟨sd0, rfl, h.1.symm, h.2.symm⟩

/-- Induction step for sequences of burns: the returned payloads carry the
consecutive nonces starting at the ledger length, and the ledger nonces
extend accordingly. -/
theorem run_burns_spec (calls : List BurnCall) :
    ∀ (s s' : ContractState) (rs : List HandleResponse),
      run_burns s calls = .ok (s', rs) →
        rs.map HandleResponse.data =
          (List.range' s.swaps.length calls.length).map
            (fun i => some (to_binary_handle_result (.Receive .Success i))) ∧
        s'.swaps.map SwapDetails.nonce =
          s.swaps.map SwapDetails.nonce ++ List.range' s.swaps.length calls.length := by
  induction calls with
  | nil =>
    intro s s' rs h
    unfold run_burns at h
    simp only [Except.ok.injEq, Prod.mk.injEq] at h
    rw [← h.1, ← h.2]
    simp [List.range']
  | cons c rest ih =>
    intro s s' rs h
    unfold run_burns at h
    cases hb : burn_sxmr s c.env c.from_addr c.amount c.msg with
    | error e => simp [hb] at h
    | ok p =>
      obtain ⟨s1, r⟩ := p
      simp only [hb] at h
      cases hr : run_burns s1 rest with
      | error e => simp [hr] at h
      | ok q =>
        obtain ⟨s2, rs2⟩ := q
        simp only [hr, Except.ok.injEq, Prod.mk.injEq] at h
        obtain ⟨sd0, _hmsg, hs1, hrr⟩ := burn_sxmr_ok_spec _ _ _ _ _ _ _ hb
        have ih' := ih s1 s2 rs2 hr
        have hlen : s1.swaps.length = s.swaps.length + 1 := by
          rw [hs1]; simp
        have hmapn : s1.swaps.map SwapDetails.nonce =
            s.swaps.map SwapDetails.nonce ++ [s.swaps.length] := by
          rw [hs1]; simp
        constructor
        · rw [← h.2, List.map_cons, hrr, ih'.1, hlen]
          simp [List.range'_succ]
        · rw [← h.1, ih'.2, hmapn, hlen]
          simp [List.range'_succ, List.append_assoc]

/-- C2: every successful burn notification returns the nonce equal to the
Swap Request Ledger length at the moment of insertion (both in the response
payload and as the appended record nonce), and a sequence of N successful
burns starting from an empty ledger returns exactly the nonces 0, ..., N-1
in call order, which are also the stored record nonces — no gaps, no
repeats. -/
theorem burn_nonce_sequence :
    (∀ (s : ContractState) (env : Env) (from_addr : Addr) (amount : Nat)
        (msg : Option SwapDetailsMsg) (s' : ContractState) (r : HandleResponse),
      burn_sxmr s env from_addr amount msg = .ok (s', r) →
        r.data = some (to_binary_handle_result (.Receive .Success s.swaps.length)) ∧
        s'.swaps.map SwapDetails.nonce = s.swaps.map SwapDetails.nonce ++ [s.swaps.length]) ∧
    (∀ (calls : List BurnCall) (s s' : ContractState) (rs : List HandleResponse),
      run_burns s calls = .ok (s', rs) → s.swaps = [] →
        rs.map HandleResponse.data =
          (List.range calls.length).map
            (fun i => some (to_binary_handle_result (.Receive .Success i))) ∧
        s'.swaps.map SwapDetails.nonce = List.range calls.length) := by
  constructor
  · intro s env from_addr amount msg s' r h
    obtain ⟨sd0, _hmsg, hs, hr⟩ := burn_sxmr_ok_spec s env from_addr amount msg s' r h
    constructor
    · rw [hr]
    · rw [hs]; simp
  · intro calls s s' rs h h0
    have spec := run_burns_spec calls s s' rs h
    rw [h0] at spec
    simpa [List.range_eq_range' calls.length] using spec

/-- C2 witness: a concrete two-burn run from the post-init state returns the
nonces 0 and 1 in order. -/
theorem burn_nonce_sequence_witness :
    run_burns test_state c2_calls = .ok (c2_final, c2_responses) ∧
    test_state.swaps = [] ∧
    c2_responses.map HandleResponse.data =
      (List.range c2_calls.length).map
        (fun i => some (to_binary_handle_result (.Receive .Success i))) :=
  ⟨rfl, rfl,
   (burn_nonce_sequence.2 c2_calls test_state c2_final c2_responses rfl rfl).1⟩

/-- C3 counterexample: the claim says the no-credential case and the
wrong-key case return the identical generic message; in the code the two
`ViewingKeyError` messages differ, so a caller can tell them apart. The two
states below differ only in whether "alice" ever registered a key. -/
theorem vk_error_messages_distinguishable :
    auth_vk_access test_state.viewing_keys "alice" "guess" =
      some (.ViewingKeyError "viewing key for this address is not set") ∧
    auth_vk_access vk_wrong_state.viewing_keys "alice" "guess" =
      some (.ViewingKeyError "incorrect viewing key") ∧
    auth_vk_access test_state.viewing_keys "alice" "guess" ≠
      auth_vk_access vk_wrong_state.viewing_keys "alice" "guess" :=
  ⟨by decide, by decide, by decide⟩

/-- C3 (amended): both failure outcomes of viewing-key authentication refuse
access with a `ViewingKeyError` response, but with two distinct fixed
messages — "viewing key for this address is not set" when no credential is
registered and "incorrect viewing key" on a digest mismatch — so the two
failure cases are observably different. -/
theorem vk_auth_failure_modes (vks : List (Addr × List Nat)) (address : Addr) (key : String) :
    (read_viewing_key vks address = none →
      auth_vk_access vks address key =
        some (.ViewingKeyError "viewing key for this address is not set")) ∧
    (∀ d, read_viewing_key vks address = some d →
      (ViewingKey.mk key).is_valid d = false →
      auth_vk_access vks address key = some (.ViewingKeyError "incorrect viewing key")) := by
  constructor
  · intro h
    simp [auth_vk_access, h]
  · intro d h hv
    simp [auth_vk_access, h, hv]

/-- C3 witness: the amended statement applied to the two concrete states of
the counterexample. -/
theorem vk_auth_failure_modes_witness :
    read_viewing_key test_state.viewing_keys "alice" = none ∧
    auth_vk_access test_state.viewing_keys "alice" "guess" =
      some (.ViewingKeyError "viewing key for this address is not set") ∧
    (ViewingKey.mk "guess").is_valid ((ViewingKey.mk "secret").to_hashed) = false ∧
    auth_vk_access vk_wrong_state.viewing_keys "alice" "guess" =
      some (.ViewingKeyError "incorrect viewing key") :=
  ⟨rfl,
   (vk_auth_failure_modes test_state.viewing_keys "alice" "guess").1 rfl,
   by decide,
   (vk_auth_failure_modes vk_wrong_state.viewing_keys "alice" "guess").2
     ((ViewingKey.mk "secret").to_hashed) rfl (by decide)⟩

/-- C4: a successful burn stores a record whose `requester_identity`
(`from_secret_address`) is exactly the notification `from` field; the
payload field of the same name is discarded outright, so whenever the
two differ the new record never carries the payload value. -/
theorem burn_requester_identity (s : ContractState) (env : Env) (from_addr : Addr)
    (amount : Nat) (payload : SwapDetailsMsg) (s' : ContractState) (r : HandleResponse)
    (h : burn_sxmr s env from_addr amount (some payload) = .ok (s', r)) :
    s'.swaps = s.swaps ++
      [{ to_monero_address := payload.to_monero_address, from_secret_address := from_addr,
         amount := payload.amount, nonce := s.swaps.length }] ∧
    (payload.from_secret_address ≠ from_addr →
      ∀ sd ∈ s'.swaps, sd ∉ s.swaps → sd.from_secret_address ≠ payload.from_secret_address) := by
  obtain ⟨sd0, hmsg, hs, _hr⟩ :=
    burn_sxmr_ok_spec s env from_addr amount (some payload) s' r h
  have hsd : sd0 = payload := by
    injection hmsg with hmsg'
    exact hmsg'.symm
  subst hsd
  constructor
  · rw [hs]
  · intro hdiff sd hmem hnotold
    rw [hs] at hmem
    rcases List.mem_append.mp hmem with hold | hnew
    · exact absurd hold hnotold
    · rw [List.mem_singleton.mp hnew]
      exact fun hcontra => hdiff hcontra.symm

/-- C4 witness: a concrete burn whose payload claims a different secret
address; the stored record carries the notification sender. -/
theorem burn_requester_identity_witness :
    c2_payload_a.from_secret_address ≠ "alice" ∧
    c4_state.swaps = test_state.swaps ++
      [{ to_monero_address := c2_payload_a.to_monero_address, from_secret_address := "alice",
         amount := c2_payload_a.amount, nonce := test_state.swaps.length }] :=
  ⟨by decide,
   (burn_requester_identity test_state token_env "alice" 20000 c2_payload_a
      c4_state c4_resp rfl).1⟩

/-- C6: for a burn notification from the registered token contract, an
amount exactly equal to `min_swap_amount` succeeds (with a well-formed
payload), while any amount strictly below it fails with the below-minimum
error — a failure that occurs before the payload is even parsed and, the
result being an error, leaves the Swap Request Ledger untouched. -/
theorem burn_min_swap_threshold (s : ContractState) (env : Env) (from_addr : Addr)
    (payload : SwapDetailsMsg) (hauth : env.sender = s.constants.snip20.address) :
    (∃ s' r, burn_sxmr s env from_addr s.min_swap_amount (some payload) = .ok (s', r)) ∧
    (∀ (amount : Nat) (m : Option SwapDetailsMsg), amount < s.min_swap_amount →
      burn_sxmr s env from_addr amount m =
        .error (.genericErr
          ("Cannot swap amount under minimum of: " ++ Nat.repr s.min_swap_amount))) := by
  constructor
  · cases hres : burn_sxmr s env from_addr s.min_swap_amount (some payload) with
    | ok p =>
      obtain ⟨s1, r⟩ := p
      exact ⟨s1, r, rfl⟩
    | error e =>
      exfalso
      simp [burn_sxmr, auth_burn, hauth, from_binary_swap_details] at hres
  · intro amount m hlt
    simp [burn_sxmr, auth_burn, hauth, hlt]

/-- C6 witness: with the minimum at 10000, a burn of exactly 10000 succeeds
and a burn of 9999 fails with the below-minimum error. -/
theorem burn_min_swap_threshold_witness :
    minter_env.sender ≠ test_state.constants.snip20.address ∧
    token_env.sender = test_state.constants.snip20.address ∧
    (∃ s' r, burn_sxmr test_state token_env "alice" test_state.min_swap_amount
      (some c2_payload_a) = .ok (s', r)) ∧
    (9999 : Nat) < test_state.min_swap_amount ∧
    burn_sxmr test_state token_env "alice" 9999 (some c2_payload_a) =
      .error (.genericErr
        ("Cannot swap amount under minimum of: " ++ Nat.repr test_state.min_swap_amount)) :=
  ⟨by decide, rfl,
   (burn_min_swap_threshold test_state token_env "alice" c2_payload_a rfl).1,
   by decide,
   (burn_min_swap_threshold test_state token_env "alice" c2_payload_a rfl).2
     9999 (some c2_payload_a) (by decide)⟩

/-- C7: a `SwapDetails` query authenticated with a correct viewing key for
`address` returns the not-found error whenever no stored record carries both
the supplied nonce and `address` as its requester — in particular when the
record at that nonce belongs to a different identity. No data of another
identity can be returned, since the result is the `NotFound` error. -/
theorem swap_details_cross_identity_not_found (s : ContractState) (address : Addr)
    (key : String) (nonce : Nat) (d : List Nat)
    (hk : read_viewing_key s.viewing_keys address = some d)
    (hv : (ViewingKey.mk key).is_valid d = true)
    (hno : ∀ sd ∈ s.swaps, sd.nonce = nonce → sd.from_secret_address ≠ address) :
    query_swap_details s address key nonce = .error (.notFound "swaps") := by
  have hfind : s.swaps.find?
      (fun sd => sd.nonce == nonce && sd.from_secret_address == address) = none := by
    rw [List.find?_eq_none]
    intro sd hsd
    simp only [Bool.and_eq_true, beq_iff_eq, not_and]
    intro hn
    exact hno sd hsd hn
  simp [query_swap_details, auth_vk_access, hk, hv, fetch_swap_details, hfind]

/-- C7 witness: "alice" holds a correct key, the only record (nonce 0)
belongs to "bob"; the query for nonce 0 as "alice" returns not-found. -/
theorem swap_details_cross_identity_not_found_witness :
    read_viewing_key c7_state.viewing_keys "alice" =
      some ((ViewingKey.mk "alicekey").to_hashed) ∧
    (ViewingKey.mk "alicekey").is_valid ((ViewingKey.mk "alicekey").to_hashed) = true ∧
    query_swap_details c7_state "alice" "alicekey" 0 = .error (.notFound "swaps") :=
  ⟨rfl, by decide,
   swap_details_cross_identity_not_found c7_state "alice" "alicekey" 0
     ((ViewingKey.mk "alicekey").to_hashed) rfl (by decide) (by decide)⟩

/-- C10: the public `Config` query is a function of exactly the admin, the
minter list, the minimum swap amount, the token reference and the status —
two states agreeing on those five (and so in particular two states
differing only in the stored `viewing_key` or `prng_seed`) produce
identical responses, so the public read leaks neither secret. -/
theorem config_query_independent_of_secrets (s t : ContractState)
    (h1 : s.constants.admin = t.constants.admin) (h2 : s.minters = t.minters)
    (h3 : s.min_swap_amount = t.min_swap_amount)
    (h4 : s.constants.snip20 = t.constants.snip20) (h5 : s.status = t.status) :
    query_config s = query_config t := by
  simp [query_config, h1, h2, h3, h4, h5]

/-- C10 witness: a twin state with a different stored viewing key and seed
answers the Config query identically. -/
theorem config_query_independent_of_secrets_witness :
    c10_twin.constants.viewing_key ≠ test_state.constants.viewing_key ∧
    c10_twin.constants.prng_seed ≠ test_state.constants.prng_seed ∧
    query_config test_state = query_config c10_twin :=
  ⟨by decide, by decide,
   config_query_independent_of_secrets test_state c10_twin rfl rfl rfl rfl rfl⟩

/-- C8: evaluation of the code at the failing input for the padding claim.
`handle` applies `pad_response` only on its Paused branch; on the Running
dispatch path the response `data` is returned exactly as serialized. A
successful admin `SetMinters` while Running carries a 36-byte payload, and
36 is not a multiple of the 256-byte block size — so not every produced
response has block-aligned data, contrary to the claim. -/
theorem handle_running_response_unpadded :
    handle test_state admin_env (.SetMinters ["newMinter"]) =
      .ok ({ test_state with minters := ["newMinter"] },
        { messages := [], log := [],
          data := some (to_binary_handle_result (.SetMinters .Success)) }) ∧
    (to_binary_handle_result (.SetMinters .Success)).length = 36 ∧
    (36 : Nat) % BLOCK_SIZE ≠ 0 :=
  ⟨rfl, by decide, by decide⟩

/-- C9: evaluation of the code at the failing input for the credential
rotation claim. When the admin calls SetViewingKey with a new key, the
contract emits the set-viewing-key instruction to the token service but
returns the state entirely unchanged: `Constants.viewing_key` still holds
the old value, contrary to the claim that the stored service credential is
updated. -/
theorem admin_set_vk_state_unchanged :
    handle test_state admin_env (.SetViewingKey "new_vk") =
      .ok (test_state,
        { messages := [.setViewingKeyMsg "new_vk" "tokenHash" "tokenAddr"],
          log := [],
          data := some (to_binary_handle_result (.SetViewingKey .Success)) }) ∧
    test_state.constants.viewing_key = "vk" ∧
    ("vk" : String) ≠ "new_vk" :=
  ⟨rfl, rfl, by decide⟩

/-- C1: once a proof with some `tx_id` is in the Proof Ledger, any further
Mint carrying a proof with the same `tx_id` fails — with the duplicate-proof
error when the caller is a minter (and with some error in every case), so it
returns no successor state: nothing is appended and no mint instruction is
emitted. Moreover no successful command ever removes a ledger entry
(conjunct two), so the ledger membership — and with it the at-most-once
guarantee — persists across the life of the contract. -/
theorem mint_replay_protection (s : ContractState) :
    (∀ (q p : MoneroProof) (env : Env) (amount : Nat) (recipient : Addr),
      q ∈ s.proofs → p.tx_id = q.tx_id →
        (env.sender ∈ s.minters →
          mint_sxmr s env amount p recipient = .error (.genericErr "invalid monero proof")) ∧
        ∃ e, mint_sxmr s env amount p recipient = .error e) ∧
    (∀ (env : Env) (msg : HandleMsg) (out : ContractState × HandleResponse),
      handle s env msg = .ok out → ∀ q ∈ s.proofs, q ∈ out.1.proofs) := by
  constructor
  · intro q p env amount recipient hq htx
    have hsome : (s.proofs.find? (fun r => r.tx_id == p.tx_id)).isSome :=
      List.find?_isSome.mpr ⟨q, hq, by simp [htx]⟩
    obtain ⟨r, hr⟩ := Option.isSome_iff_exists.mp hsome
    have hinv : is_valid_proof p.tx_id s.proofs = false := by
      unfold is_valid_proof fetch_by_tx_id
      rw [hr]
    constructor
    · intro hmem
      simp [mint_sxmr, auth_mint, hmem, hinv]
    · by_cases hmem : env.sender ∈ s.minters
      · exact ⟨.genericErr "invalid monero proof",
          by simp [mint_sxmr, auth_mint, hmem, hinv]⟩
      · exact ⟨.genericErr "user is unauthorized to mint",
          by simp [mint_sxmr, auth_mint, hmem]⟩
  · intro env msg out h q hq
    by_cases hst : s.status = ContractStatusLevel.Paused
    · cases msg with
      | SetContractStatus level =>
        simp only [handle] at h
        rw [if_pos hst] at h
        cases ha : auth_admin_access s env.sender with
        | error e => simp [set_contract_status, ha, pad_response] at h
        | ok u =>
          simp only [set_contract_status, ha, pad_response, Except.ok.injEq] at h
          rw [← h]
          exact hq
      | ChangeAdmin address =>
        simp only [handle] at h
        rw [if_pos hst] at h
        simp [pad_response] at h
      | ChangeSecretMoneroContract sm =>
        simp only [handle] at h
        rw [if_pos hst] at h
        simp [pad_response] at h
      | SetViewingKey key =>
        simp only [handle] at h
        rw [if_pos hst] at h
        simp [pad_response] at h
      | MintSecretMonero proof recipient amount =>
        simp only [handle] at h
        rw [if_pos hst] at h
        simp [pad_response] at h
      | Receive from_addr sender amount m =>
        simp only [handle] at h
        rw [if_pos hst] at h
        simp [pad_response] at h
      | SetMinters minters =>
        simp only [handle] at h
        rw [if_pos hst] at h
        simp [pad_response] at h
    · cases msg with
      | ChangeAdmin address =>
        simp only [handle] at h
        rw [if_neg hst] at h
        cases ha : auth_admin_access s env.sender with
        | error e => simp [change_admin, ha] at h
        | ok u =>
          simp only [change_admin, ha, Except.ok.injEq] at h
          rw [← h]
          exact hq
      | ChangeSecretMoneroContract sm =>
        simp only [handle] at h
        rw [if_neg hst] at h
        cases ha : auth_admin_access s env.sender with
        | error e => simp [change_sxmr_contract, ha] at h
        | ok u =>
          simp only [change_sxmr_contract, ha, Except.ok.injEq] at h
          rw [← h]
          exact hq
      | SetViewingKey key =>
        simp only [handle] at h
        rw [if_neg hst] at h
        unfold set_vk at h
        by_cases hadm : is_admin s env.sender = true
        · rw [if_pos hadm] at h
          unfold set_contract_vk at h
          simp only [Except.ok.injEq] at h
          rw [← h]
          exact hq
        · rw [if_neg hadm] at h
          simp only [Except.ok.injEq] at h
          rw [← h]
          exact hq
      | MintSecretMonero proof recipient amount =>
        simp only [handle] at h
        rw [if_neg hst] at h
        unfold mint_sxmr at h
        cases ha : auth_mint s env.sender with
        | error e => simp [ha] at h
        | ok u =>
          simp only [ha] at h
          by_cases hv : is_valid_proof proof.tx_id s.proofs = true
          · rw [if_pos hv] at h
            simp only [Except.ok.injEq] at h
            rw [← h]
            exact List.mem_append_left _ hq
          · rw [if_neg hv] at h
            exact absurd h (by simp)
      | Receive from_addr sender amount m =>
        simp only [handle] at h
        rw [if_neg hst] at h
        obtain ⟨sd0, _hm2, hs, _hr2⟩ :=
          burn_sxmr_ok_spec s env from_addr amount m out.1 out.2 h
        rw [hs]
        exact hq
      | SetContractStatus level =>
        simp only [handle] at h
        rw [if_neg hst] at h
        cases ha : auth_admin_access s env.sender with
        | error e => simp [set_contract_status, ha] at h
        | ok u =>
          simp only [set_contract_status, ha, Except.ok.injEq] at h
          rw [← h]
          exact hq
      | SetMinters minters =>
        simp only [handle] at h
        rw [if_neg hst] at h
        cases ha : auth_admin_access s env.sender with
        | error e => simp [set_minters, ha] at h
        | ok u =>
          simp only [set_minters, ha, Except.ok.injEq] at h
          rw [← h]
          exact hq

/-- C1 witness: after the proof with tx_id "t1" has been consumed, a second
mint by the authorized minter with a different proof carrying the same
tx_id fails with the duplicate-proof error. -/
theorem mint_replay_protection_witness :
    c1_proof ∈ c1_state.proofs ∧
    c1_proof2.tx_id = c1_proof.tx_id ∧
    minter_env.sender ∈ c1_state.minters ∧
    mint_sxmr c1_state minter_env 500000 c1_proof2 "recipient" =
      .error (.genericErr "invalid monero proof") :=
  ⟨by decide, rfl, by decide,
   ((mint_replay_protection c1_state).1 c1_proof c1_proof2 minter_env 500000 "recipient"
      (by decide) rfl).1 (by decide)⟩

/-- C5: while the contract is Paused, every command other than
`SetContractStatus` fails with the fixed stopped error — for every sender
alike, so no access-control or handler logic is reached, and the error
result carries no state change; `SetContractStatus` itself fails for any
non-admin sender and, for the admin, succeeds whatever the current status,
its only state change being the status field. -/
theorem paused_gate (s : ContractState) (env : Env) :
    (s.status = ContractStatusLevel.Paused → ∀ msg : HandleMsg,
      (∀ lvl, msg ≠ .SetContractStatus lvl) →
      handle s env msg =
        .error (.genericErr "This contract is stopped and this action is not allowed")) ∧
    (∀ lvl, env.sender ≠ s.constants.admin →
      handle s env (.SetContractStatus lvl) =
        .error (.genericErr
          "This is an admin command. Admin commands can only be run from admin address")) ∧
    (∀ lvl, env.sender = s.constants.admin →
      ∃ r, handle s env (.SetContractStatus lvl) = .ok ({ s with status := lvl }, r)) := by
  refine ⟨?_, ?_, ?_⟩
  · intro hp msg hne
    cases msg with
    | SetContractStatus level => exact absurd rfl (hne level)
    | ChangeAdmin a => simp [handle, hp, pad_response]
    | ChangeSecretMoneroContract a => simp [handle, hp, pad_response]
    | SetViewingKey a => simp [handle, hp, pad_response]
    | MintSecretMonero a b c => simp [handle, hp, pad_response]
    | Receive a b c d => simp [handle, hp, pad_response]
    | SetMinters a => simp [handle, hp, pad_response]
  · intro lvl hne
    have hb : is_admin s env.sender = false := by
      unfold is_admin
      exact beq_eq_false_iff_ne.mpr (fun hcontra => hne hcontra.symm)
    by_cases hst : s.status = ContractStatusLevel.Paused
    · simp [handle, hst, set_contract_status, auth_admin_access, hb, pad_response]
    · simp [handle, hst, set_contract_status, auth_admin_access, hb, pad_response]
  · intro lvl hadm
    have hb : is_admin s env.sender = true := by
      unfold is_admin
      exact beq_iff_eq.mpr hadm.symm
    by_cases hst : s.status = ContractStatusLevel.Paused
    · refine ⟨{ messages := [],
                log := [],
                data := some (space_pad BLOCK_SIZE (to_binary_handle_result (.SetContractStatus .Success))) }, ?_⟩
      simp [handle, hst, set_contract_status, auth_admin_access, hb, pad_response]
    · refine ⟨{ messages := [],
                log := [],
                data := some (to_binary_handle_result (.SetContractStatus .Success)) }, ?_⟩
      simp [handle, hst, set_contract_status, auth_admin_access, hb, pad_response]

/-- C5 witness: on a concrete paused state, a `SetMinters` command fails
with the stopped error, a non-admin `SetContractStatus` fails with the
admin error, and the admin unpauses successfully. -/
theorem paused_gate_witness :
    paused_state.status = ContractStatusLevel.Paused ∧
    handle paused_state admin_env (.SetMinters ["x"]) =
      .error (.genericErr "This contract is stopped and this action is not allowed") ∧
    handle paused_state other_env (.SetContractStatus .Running) =
      .error (.genericErr
        "This is an admin command. Admin commands can only be run from admin address") ∧
    ∃ r, handle paused_state admin_env (.SetContractStatus .Running) =
      .ok ({ paused_state with status := .Running }, r) :=
  ⟨rfl,
   (paused_gate paused_state admin_env).1 rfl (.SetMinters ["x"])
     (fun lvl hcontra => HandleMsg.noConfusion hcontra),
   (paused_gate paused_state other_env).2.1 .Running (by decide),
   (paused_gate paused_state admin_env).2.2 .Running rfl⟩

end SecretMoneroBridge

